import Mathlib

/-!
Shallow embedding of `root_logger.py` (driveHalo-py-jetson): the
`LoggingManager` (channel registry, special loggers, rate limiter,
level control) and the `LogWindow` live overlay (bounded ring buffer
and renderer).

Modelling conventions:
* Python `dict`s are insertion-ordered association lists
  `List (String × α)`; `d[k] = v` is `aset`, mutation of the object
  stored under a key is `aupdate`, membership/lookup is `alookup`.
* `time.time()` results and `time.strftime` timestamps are passed in
  explicitly as arguments (the clock is an input of the model).
* A call `logger.log(level, msg)` (or `.info(msg)`) appends the record
  `(level, msg)` to that logger's `records` list; sink-side filtering
  and formatting are outside the modelled claims.
* Python floats (timestamps, per-second limits) are modelled as `ℚ`.
* `collections.deque(maxlen = n)` is a list with `dequeAppend`, which
  drops from the front once the length would exceed `n`.
-/

namespace RootLogger

/-- Numeric log levels, as in `LoggingManager.LOG_LEVELS` / the Python
`logging` module. -/
def DEBUG : Nat := 10

def INFO : Nat := 20

def WARNING : Nat := 30

def ERROR : Nat := 40

def CRITICAL : Nat := 50

/-- Lookup in an insertion-ordered dict (`k in d` / `d[k]`). -/
def alookup {α : Type} (k : String) : List (String × α) → Option α
  | [] => none
  | p :: rest => if p.1 = k then some p.2 else alookup k rest

/-- Dict assignment `d[k] = v`: overwrite the entry in place when the key
exists, otherwise append a new entry at the end. -/
def aset {α : Type} (k : String) (v : α) : List (String × α) → List (String × α)
  | [] => [(k, v)]
  | p :: rest => if p.1 = k then (p.1, v) :: rest else p :: aset k v rest

/-- In-place mutation of the object stored under key `k` (a no-op when the
key is absent), modelling Python attribute mutation through a dict-held
reference. -/
def aupdate {α : Type} (k : String) (f : α → α) : List (String × α) → List (String × α)
  | [] => []
  | p :: rest => if p.1 = k then (p.1, f p.2) :: rest else p :: aupdate k f rest

/-- `collections.deque(maxlen := n).append a` on contents `l`: append,
then discard from the left while longer than `n`. -/
def dequeAppend {α : Type} (n : Nat) (l : List α) (a : α) : List α :=
  let l' := l ++ [a]
  if n < l'.length then l'.drop (l'.length - n) else l'

/-- The last `n` elements of a list (what a `maxlen := n` deque retains). -/
def rightTake {α : Type} (n : Nat) (l : List α) : List α :=
  l.drop (l.length - n)

/-- A sink attached to a logger: console `StreamHandler` or
`RotatingFileHandler` with its target path, `maxBytes` and `backupCount`. -/
inductive Handler where
  | console : Handler
  | rotatingFile (path : String) (maxBytes : Nat) (backupCount : Nat) : Handler
deriving DecidableEq

/-- A `logging.Logger` as used by `root_logger.py`: name, numeric level,
propagation flag, attached handlers, and the records dispatched to it. -/
structure Logger where
  name : String
  level : Nat
  propagate : Bool
  handlers : List Handler
  records : List (Nat × String)
deriving DecidableEq

/-- The state of a `LoggingManager` instance: its configuration, the
`loggers` registry, the `special_loggers` dict (value `none` while the
Python dict still holds `None`, `some n` once it holds the logger named
`n`), and the `rate_limiters` dict keyed by `"name:level"`. -/
structure LoggingManager where
  log_dir : String
  default_level : Nat
  enable_console : Bool
  enable_file : Bool
  max_file_size_mb : Nat
  backup_count : Nat
  loggers : List (String × Logger)
  special_loggers : List (String × Option String)
  rate_limiters : List (String × ℚ)
deriving DecidableEq

/-- The keys of the `special_loggers` dict literal, in insertion order. -/
def special_categories : List String :=
  ["diagnostic", "sensor", "sync", "control", "performance"]

/-- `LoggingManager.get_logger`: return the registered logger, or create a
fresh one (level `NOTSET = 0`, default `propagate = true`, no handlers),
clearing `propagate` when the name is a `special_loggers` key, and store
it in the registry. -/
def get_logger (m : LoggingManager) (name : String) : LoggingManager × Logger :=
  match alookup name m.loggers with
  | some lg => (m, lg)
  | none =>
    let lg : Logger :=
      { name := name, level := 0,
        propagate := !(alookup name m.special_loggers).isSome,
        handlers := [], records := [] }
    ({ m with loggers := aset name lg m.loggers }, lg)

/-- `LoggingManager._configure_root_logger`: reset the root logger's
handlers, set its level to the default, attach the console handler and the
rotating `main.log` handler per the enable flags, and store it under
`root`. -/
def configure_root_logger (m : LoggingManager) : LoggingManager :=
  let handlers :=
    (if m.enable_console then [Handler.console] else []) ++
      (if m.enable_file then
        [Handler.rotatingFile (m.log_dir ++ "/" ++ "main.log")
          (m.max_file_size_mb * 1024 * 1024) m.backup_count]
      else [])
  let root : Logger :=
    { name := "root", level := m.default_level, propagate := true,
      handlers := handlers, records := [] }
  { m with loggers := aset "root" root m.loggers }

/-- One iteration of `LoggingManager._initialize_special_loggers`: create
the category's logger via `get_logger`, attach its own rotating file
handler when file logging is enabled, and store it in `special_loggers`. -/
def init_special_one (m : LoggingManager) (category : String) : LoggingManager :=
  let r := get_logger m category
  let m2 :=
    if r.1.enable_file then
      { r.1 with loggers := aupdate category (fun lg =>
          { lg with handlers := lg.handlers ++
              [Handler.rotatingFile (r.1.log_dir ++ "/" ++ category ++ ".log")
                (r.1.max_file_size_mb * 1024 * 1024) r.1.backup_count] }) r.1.loggers }
    else r.1
  { m2 with special_loggers := aset category (some category) m2.special_loggers }

/-- `LoggingManager._initialize_special_loggers`: the loop over the
`special_loggers` keys in dict order. -/
def initialize_special_loggers (m : LoggingManager) : LoggingManager :=
  special_categories.foldl init_special_one m

/-- `LoggingManager.__init__`: record the configuration, start with an
empty registry, the five-key `special_loggers` dict holding `None`, an
empty rate-limiter dict, then configure the root logger and the special
loggers. -/
def mkLoggingManager (log_dir : String) (default_level : Nat)
    (enable_console enable_file : Bool) (max_file_size_mb backup_count : Nat) :
    LoggingManager :=
  let m0 : LoggingManager :=
    { log_dir := log_dir, default_level := default_level,
      enable_console := enable_console, enable_file := enable_file,
      max_file_size_mb := max_file_size_mb, backup_count := backup_count,
      loggers := [],
      special_loggers := special_categories.map fun c => (c, none),
      rate_limiters := [] }
  initialize_special_loggers (configure_root_logger m0)

/-- `LoggingManager.set_level`: with `loggers = None`, set the level of
every registered logger; otherwise set it only on the named loggers that
exist in the registry (`if name in self.loggers`). -/
def set_level (m : LoggingManager) (level : Nat) :
    Option (List String) → LoggingManager
  | none =>
    { m with loggers := m.loggers.map fun p => (p.1, { p.2 with level := level }) }
  | some names =>
    names.foldl (fun acc name =>
      if (alookup name acc.loggers).isSome then
        { acc with loggers :=
            aupdate name (fun lg => { lg with level := level }) acc.loggers }
      else acc) m

/-- `LoggingManager.toggle_special_logger`: when `category` is a
`special_loggers` key whose value is a (truthy) logger, set that logger's
level to `DEBUG`/`CRITICAL` and call `.info` on `self.loggers["root"]`
(`none` models the `KeyError` were `root` unregistered); otherwise do
nothing. -/
def toggle_special_logger (m : LoggingManager) (category : String) (enable : Bool) :
    Option LoggingManager :=
  match alookup category m.special_loggers with
  | some (some lname) =>
    let level := if enable then DEBUG else CRITICAL
    let m1 :=
      { m with loggers := aupdate lname (fun lg => { lg with level := level }) m.loggers }
    match alookup "root" m1.loggers with
    | some _ =>
      some { m1 with loggers := aupdate "root" (fun lg =>
        { lg with records := lg.records ++
            [(INFO, (if enable then "Enabled" else "Disabled") ++ " " ++
              category ++ " logging")] }) m1.loggers }
    | none => none
  | _ => some m

/-- The records held by the `root` logger of a manager. -/
def rootRecords (m : LoggingManager) : List (Nat × String) :=
  ((alookup "root" m.loggers).map Logger.records).getD []

/-- `logger.log(level, message)` through a registry handle: the record is
dispatched to the named logger. -/
def logRecord (m : LoggingManager) (lname : String) (level : Nat)
    (message : String) : LoggingManager :=
  { m with loggers := aupdate lname (fun lg =>
      { lg with records := lg.records ++ [(level, message)] }) m.loggers }

/-- The `f"{logger.name}:{level}"` rate-limiter key. -/
def rlKey (lname : String) (level : Nat) : String :=
  lname ++ ":" ++ toString level

/-- `LoggingManager.rate_limited_log`: on a fresh key, record `now` and
emit; on a known key, emit and update the timestamp only when
`now - last >= 1.0 / limit_per_second`, else do nothing. The boolean
reports whether `logger.log` was called. -/
def rate_limited_log (m : LoggingManager) (lname : String) (level : Nat)
    (message : String) (limit_per_second : ℚ) (current_time : ℚ) :
    LoggingManager × Bool :=
  let key := rlKey lname level
  match alookup key m.rate_limiters with
  | none =>
    let m1 := { m with rate_limiters := aset key current_time m.rate_limiters }
    (logRecord m1 lname level message, true)
  | some last_log_time =>
    if (1 : ℚ) / limit_per_second ≤ current_time - last_log_time then
      let m1 := logRecord m lname level message
      ({ m1 with rate_limiters := aset key current_time m1.rate_limiters }, true)
    else
      (m, false)

/-- The module-level `initialize_logging`: construct the manager only when
the global `_logging_manager` is `None`; always return the (state, handle)
pair afterwards. `max_file_size_mb`/`backup_count` keep the constructor
defaults `10`/`5`. -/
def initialize_logging (st : Option LoggingManager) (log_dir : String)
    (default_level : Nat) (enable_console enable_file : Bool) :
    Option LoggingManager × LoggingManager :=
  match st with
  | none =>
    let m := mkLoggingManager log_dir default_level enable_console enable_file 10 5
    (some m, m)
  | some m => (some m, m)

/-- One overlay record: `(timestamp, category, message)` as appended by
`LogWindow.add_log`. -/
structure LogRecord where
  timestamp : String
  category : String
  message : String
deriving DecidableEq

/-- The state of a `LogWindow`: fixed window size, deque capacity
`max_lines`, the ring buffer contents (oldest first), the fixed font size
and line height, and whether `cv2.namedWindow` succeeded (the `except`
branch only prints, so the flag influences nothing else). -/
structure LogWindow where
  window_name : String
  window_width : Nat
  window_height : Nat
  max_lines : Nat
  log_lines : List LogRecord
  font_size : ℚ
  line_height : Nat
  window_ok : Bool
deriving DecidableEq

/-- The `category_colors` table (BGR triples). -/
def category_colors : List (String × Nat × Nat × Nat) :=
  [("system", 255, 255, 255), ("sensors", 0, 255, 0), ("sync", 0, 255, 255),
   ("control", 0, 165, 255), ("performance", 128, 0, 255)]

/-- `self.category_colors.get(category, (200, 200, 200))`. -/
def colorOf (category : String) : Nat × Nat × Nat :=
  (alookup category category_colors).getD (200, 200, 200)

/-- `LogWindow.add_log`: append `(timestamp, category, message)` to the
bounded deque; the strftime timestamp is an explicit input. -/
def add_log (w : LogWindow) (timestamp category message : String) : LogWindow :=
  let r : LogRecord :=
    { timestamp := timestamp, category := category, message := message }
  { w with log_lines := dequeAppend w.max_lines w.log_lines r }

/-- `LogWindow.__init__`: store the configuration, create the (initially
empty) deque, try to create the window (`window_ok` records whether that
succeeded; failure only prints), then add the four welcome messages. -/
def mkLogWindow (window_name : String) (window_size : Nat × Nat)
    (max_lines : Nat) (window_ok : Bool) (ts1 ts2 ts3 ts4 : String) : LogWindow :=
  let w0 : LogWindow :=
    { window_name := window_name, window_width := window_size.1,
      window_height := window_size.2, max_lines := max_lines, log_lines := [],
      font_size := 1 / 2, line_height := 20, window_ok := window_ok }
  let w1 := add_log w0 ts1 "system" "Log window initialized"
  let w2 := add_log w1 ts2 "system" "Press keys 1-5 to toggle diagnostic categories"
  let w3 := add_log w2 ts3 "system" "Press \x27f\x27 to force a full diagnostic log"
  add_log w3 ts4 "system" "window can be resized by dragging"

/-- `LogWindow.clear`: empty the deque, then `add_log("system", "Log cleared")`. -/
def clear (w : LogWindow) (timestamp : String) : LogWindow :=
  add_log { w with log_lines := [] } timestamp "system" "Log cleared"

/-- A `cv2.putText` call issued by `LogWindow.render`. -/
structure DrawCmd where
  text : String
  x : Nat
  y : Nat
  color : Nat × Nat × Nat
deriving DecidableEq

/-- The three `putText` columns drawn for one visible record at height `y`. -/
def rowCmds (r : LogRecord) (y : Nat) : List DrawCmd :=
  [{ text := r.timestamp, x := 10, y := y, color := (150, 150, 150) },
   { text := "[" ++ r.category.toUpper ++ "]", x := 100, y := y,
     color := colorOf r.category },
   { text := r.message, x := 240, y := y, color := (220, 220, 220) }]

/-- The drawing loop of `LogWindow.render` over the visible slice: draw the
record at `y_pos`, advance by `line_height`, and break once
`y_pos >= height - 10`. Returns the `(y_pos, record)` rows actually drawn. -/
def drawnRows (height line_height : Nat) :
    List LogRecord → Nat → List (Nat × LogRecord)
  | [], _ => []
  | r :: rest, y =>
    if height - 10 ≤ y + line_height then [(y, r)]
    else (y, r) :: drawnRows height line_height rest (y + line_height)

/-- The slice `self.log_lines[start_idx:]` that the render loop iterates
over: the last `min(height // line_height, len)` records. -/
def visibleSlice (w : LogWindow) : List LogRecord :=
  let visible_lines := min (w.window_height / w.line_height) w.log_lines.length
  w.log_lines.drop (w.log_lines.length - visible_lines)

/-- `LogWindow.render`: the `putText` calls issued (three per drawn row,
starting at `y_pos = 20`) and whether the canvas was presented via
`cv2.imshow` (the model raises no drawing errors, so it always is). -/
def render (w : LogWindow) : List DrawCmd × Bool :=
  (((drawnRows w.window_height w.line_height (visibleSlice w) 20).map
      fun p => rowCmds p.2 p.1).flatten, true)

/-- The records drawn by `LogWindow.render`, oldest first. -/
def renderRecords (w : LogWindow) : List LogRecord :=
  (drawnRows w.window_height w.line_height (visibleSlice w) 20).map Prod.snd

/-- How many rows the render loop draws out of `n` remaining records when
the cursor is at `y`: the loop breaks after the row whose successor
position reaches `height - 10`. -/
def rowsFrom (height line_height y : Nat) : Nat → Nat
  | 0 => 0
  | n + 1 =>
    if height - 10 ≤ y + line_height then 1
    else rowsFrom height line_height (y + line_height) n + 1

/-- A minimal manager state used by concrete witness instantiations. -/
def mTest : LoggingManager :=
  { log_dir := "logs", default_level := 20, enable_console := true,
    enable_file := true, max_file_size_mb := 10, backup_count := 5,
    loggers := [], special_loggers := [], rate_limiters := [] }

/-- Folding a list of records through `LogWindow.add_log`. -/
def foldAddLog (w : LogWindow) (xs : List LogRecord) : LogWindow :=
  xs.foldl (fun acc r => add_log acc r.timestamp r.category r.message) w

/-- A small window (capacity 2) for concrete witness instantiations. -/
def wTest : LogWindow :=
  { window_name := "System Logs", window_width := 1000, window_height := 600,
    max_lines := 2, log_lines := [], font_size := 1 / 2, line_height := 20,
    window_ok := true }

/-- Three insertions into the capacity-2 window `wTest`. -/
def xsTest : List LogRecord :=
  [{ timestamp := "t1", category := "system", message := "a" },
   { timestamp := "t2", category := "system", message := "b" },
   { timestamp := "t3", category := "system", message := "c" }]

/-- The default-size window holding 31 distinct records, used by the C2
counterexample and witness. -/
def overfullWindow : LogWindow :=
  { window_name := "System Logs", window_width := 1000, window_height := 600,
    max_lines := 100,
    log_lines := (List.range 31).map fun i =>
      { timestamp := "00:00:00", category := "system", message := toString i },
    font_size := 1 / 2, line_height := 20, window_ok := true }

/-- `get_logger` called `n` times in sequence with the same name,
collecting the returned handles. -/
def get_logger_iter (m : LoggingManager) (name : String) :
    Nat → LoggingManager × List Logger
  | 0 => (m, [])
  | n + 1 =>
    let r := get_logger m name
    let rest := get_logger_iter r.1 name n
    (rest.1, r.2 :: rest.2)

/-- The manager produced by the default-like configuration
`("logs", INFO, console, file, 10 MB, 5 backups)`, used by concrete
witnesses. -/
def mInit : LoggingManager := mkLoggingManager "logs" 20 true true 10 5

/-- The root logger built by `_configure_root_logger`. -/
def rootLoggerOf (log_dir : String) (default_level : Nat) (ec ef : Bool)
    (mb bc : Nat) : Logger :=
  { name := "root", level := default_level, propagate := true,
    handlers := (if ec then [Handler.console] else []) ++
      (if ef then [Handler.rotatingFile (log_dir ++ "/" ++ "main.log")
        (mb * 1024 * 1024) bc] else []),
    records := [] }

/-- The logger a special category ends up with after
`_initialize_special_loggers`. -/
def specialLoggerOf (log_dir : String) (ef : Bool) (mb bc : Nat)
    (c : String) : Logger :=
  { name := c, level := 0, propagate := false,
    handlers := if ef then
        [Handler.rotatingFile (log_dir ++ "/" ++ c ++ ".log")
          (mb * 1024 * 1024) bc]
      else [],
    records := [] }

/-- The manager state after `_configure_root_logger` once the
`_initialize_special_loggers` loop has processed the categories in `cs`. -/
def mgrStep (log_dir : String) (default_level : Nat) (ec ef : Bool)
    (mb bc : Nat) (cs : List String) : LoggingManager :=
  { log_dir := log_dir, default_level := default_level, enable_console := ec,
    enable_file := ef, max_file_size_mb := mb, backup_count := bc,
    loggers := ("root", rootLoggerOf log_dir default_level ec ef mb bc) ::
      cs.map (fun c => (c, specialLoggerOf log_dir ef mb bc c)),
    special_loggers := special_categories.map fun c =>
      (c, if c ∈ cs then some c else none),
    rate_limiters := [] }

theorem alookup_aset_self {α : Type} (k : String) (v : α) (l : List (String × α)) :
    alookup k (aset k v l) = some v := by
  induction l with
  | nil => simp [aset, alookup]
  | cons p rest ih =>
    by_cases h : p.1 = k <;> simp [aset, alookup, h, ih]

theorem alookup_aset_ne {α : Type} (k k' : String) (v : α) (l : List (String × α))
    (h : k' ≠ k) : alookup k' (aset k v l) = alookup k' l := by
  induction l with
  | nil => simp [aset, alookup, Ne.symm h]
  | cons p rest ih =>
    by_cases hp : p.1 = k
    · simp [aset, alookup, hp, Ne.symm h]
    · by_cases hq : p.1 = k' <;> simp [aset, alookup, hp, hq, ih, h]

theorem alookup_aupdate {α : Type} (k k' : String) (f : α → α) (l : List (String × α)) :
    alookup k (aupdate k' f l) =
      if k' = k then (alookup k l).map f else alookup k l := by
  induction l with
  | nil => simp [aupdate, alookup]
  | cons p rest ih =>
    by_cases hp : p.1 = k' <;> by_cases hq : p.1 = k
    · subst hp
      simp [aupdate, alookup, hq]
    · subst hp
      simp [aupdate, alookup, hq]
    · subst hq
      simp [aupdate, alookup, hp, Ne.symm hp]
    · simp [aupdate, alookup, hp, hq, ih]

theorem aupdate_of_alookup_none {α : Type} (k : String) (f : α → α)
    (l : List (String × α)) (h : alookup k l = none) : aupdate k f l = l := by
  induction l with
  | nil => rfl
  | cons p rest ih =>
    simp only [alookup] at h
    by_cases hp : p.1 = k
    · simp [hp] at h
    · simp only [aupdate, if_neg hp]
      rw [if_neg hp] at h
      rw [ih h]

theorem aset_of_alookup_none {α : Type} (k : String) (v : α)
    (l : List (String × α)) (h : alookup k l = none) : aset k v l = l ++ [(k, v)] := by
  induction l with
  | nil => rfl
  | cons p rest ih =>
    simp only [alookup] at h
    by_cases hp : p.1 = k
    · simp [hp] at h
    · simp only [aset, if_neg hp, List.cons_append]
      rw [if_neg hp] at h
      rw [ih h]

theorem alookup_append_self {α : Type} (k : String) (v : α)
    (l : List (String × α)) (h : alookup k l = none) :
    alookup k (l ++ [(k, v)]) = some v := by
  induction l with
  | nil => simp [alookup]
  | cons p rest ih =>
    simp only [alookup] at h ⊢
    by_cases hp : p.1 = k
    · simp [hp] at h
    · rw [if_neg hp] at h ⊢
      exact ih h

theorem alookup_map_value {α β : Type} (k : String) (f : α → β)
    (l : List (String × α)) :
    alookup k (l.map fun p => (p.1, f p.2)) = (alookup k l).map f := by
  induction l with
  | nil => simp [alookup]
  | cons p rest ih =>
    by_cases hp : p.1 = k <;> simp [alookup, hp, ih]

theorem alookup_isSome_iff_mem {α : Type} (k : String) (l : List (String × α)) :
    (alookup k l).isSome = true ↔ k ∈ l.map Prod.fst := by
  induction l with
  | nil => simp [alookup]
  | cons p rest ih =>
    by_cases hp : p.1 = k
    · simp [alookup, hp]
    · simp [alookup, hp, ih, Ne.symm hp]

theorem dequeAppend_eq_rightTake {α : Type} (n : Nat) (l : List α) (a : α) :
    dequeAppend n l a = rightTake n (l ++ [a]) := by
  simp only [dequeAppend, rightTake]
  split
  · rfl
  · next h =>
    have h0 : (l ++ [a]).length - n = 0 := by omega
    rw [h0, List.drop_zero]

theorem rightTake_length_le {α : Type} (n : Nat) (l : List α) :
    (rightTake n l).length ≤ n := by
  simp only [rightTake, List.length_drop]
  omega

theorem rightTake_append_left {α : Type} (n : Nat) (l xs : List α) :
    rightTake n (rightTake n l ++ xs) = rightTake n (l ++ xs) := by
  by_cases hln : l.length ≤ n
  · have h0 : l.length - n = 0 := by omega
    simp [rightTake, h0]
  · have hlen : (rightTake n l).length = n := by
      simp only [rightTake, List.length_drop]
      omega
    simp only [rightTake, List.length_append, hlen,
      List.drop_append_eq_append_drop, List.drop_drop, List.length_drop]
    congr 1
    · congr 1
      omega
    · congr 1
      omega

theorem drawnRows_map_snd (height line_height : Nat) (l : List LogRecord) (y : Nat) :
    (drawnRows height line_height l y).map Prod.snd =
      l.take (rowsFrom height line_height y l.length) := by
  induction l generalizing y with
  | nil => simp [drawnRows, rowsFrom]
  | cons r rest ih =>
    simp only [drawnRows, rowsFrom, List.length_cons]
    split
    · simp
    · simp [ih]

/-- C1: for every `(channel, level)` key, the first `rate_limited_log` call
emits and records the current time; a later call emits and updates the
stored timestamp iff `now - lastAccepted ≥ 1 / limitPerSecond`, and
otherwise suppresses the emission leaving the state unchanged; hence two
calls within the interval from a fresh key give emit-then-suppress and two
calls a full interval apart give emit-then-emit. -/
theorem rate_limited_log_spec (m : LoggingManager) (lname message : String)
    (level : Nat) (lim : ℚ) (hlim : 0 < lim) :
    (∀ t : ℚ, alookup (rlKey lname level) m.rate_limiters = none →
      (rate_limited_log m lname level message lim t).2 = true ∧
      alookup (rlKey lname level)
        (rate_limited_log m lname level message lim t).1.rate_limiters = some t) ∧
    (∀ t last : ℚ, alookup (rlKey lname level) m.rate_limiters = some last →
      ((1 : ℚ) / lim ≤ t - last →
        (rate_limited_log m lname level message lim t).2 = true ∧
        alookup (rlKey lname level)
          (rate_limited_log m lname level message lim t).1.rate_limiters = some t) ∧
      (t - last < (1 : ℚ) / lim →
        (rate_limited_log m lname level message lim t).2 = false ∧
        (rate_limited_log m lname level message lim t).1 = m)) ∧
    (∀ t₁ t₂ : ℚ, alookup (rlKey lname level) m.rate_limiters = none →
      (rate_limited_log m lname level message lim t₁).2 = true ∧
      ((1 : ℚ) / lim ≤ t₂ - t₁ →
        (rate_limited_log (rate_limited_log m lname level message lim t₁).1
          lname level message lim t₂).2 = true) ∧
      (t₂ - t₁ < (1 : ℚ) / lim →
        (rate_limited_log (rate_limited_log m lname level message lim t₁).1
          lname level message lim t₂).2 = false)) := by
  refine ⟨?_, ?_, ?_⟩
  · intro t h
    simp [rate_limited_log, h, logRecord, alookup_aset_self]
  · intro t last h
    constructor
    · intro hge
      simp only [rate_limited_log, h]
      rw [if_pos hge]
      simp [logRecord, alookup_aset_self]
    · intro hlt
      simp only [rate_limited_log, h]
      rw [if_neg (not_le.mpr hlt)]
      exact ⟨rfl, rfl⟩
  · intro t₁ t₂ h
    have h1 : (rate_limited_log m lname level message lim t₁).2 = true ∧
        alookup (rlKey lname level)
          (rate_limited_log m lname level message lim t₁).1.rate_limiters =
            some t₁ := by
      simp [rate_limited_log, h, logRecord, alookup_aset_self]
    refine ⟨h1.1, ?_, ?_⟩
    · intro hge
      have h2 := h1.2
      generalize hG : (rate_limited_log m lname level message lim t₁).1 = m1 at h2 ⊢
      simp only [rate_limited_log, h2]
      rw [if_pos hge]
    · intro hlt
      have h2 := h1.2
      generalize hG : (rate_limited_log m lname level message lim t₁).1 = m1 at h2 ⊢
      simp only [rate_limited_log, h2]
      rw [if_neg (not_le.mpr hlt)]

/-- C1 witness: a fresh key on a concrete manager emits and stores the
call time. -/
theorem rate_limited_log_spec_witness :
    (0 : ℚ) < 1 ∧ ((rate_limited_log mTest "x" 20 "m" 1 0).2 = true ∧
      alookup (rlKey "x" 20)
        (rate_limited_log mTest "x" 20 "m" 1 0).1.rate_limiters = some 0) :=
  ⟨by norm_num, (rate_limited_log_spec mTest "x" "m" 20 1 (by norm_num)).1 0 rfl⟩

theorem foldAddLog_log_lines (w : LogWindow) (xs : List LogRecord) :
    (foldAddLog w xs).log_lines = xs.foldl (dequeAppend w.max_lines) w.log_lines := by
  induction xs generalizing w with
  | nil => rfl
  | cons x xs ih => exact ih (add_log w x.timestamp x.category x.message)

theorem foldl_dequeAppend {α : Type} (n : Nat) (l : List α) (xs : List α)
    (h : l.length ≤ n) : xs.foldl (dequeAppend n) l = rightTake n (l ++ xs) := by
  induction xs generalizing l with
  | nil =>
    have h0 : l.length - n = 0 := by omega
    simp [rightTake, h0]
  | cons x xs ih =>
    rw [List.foldl_cons, dequeAppend_eq_rightTake,
      ih _ (rightTake_length_le n (l ++ [x])), rightTake_append_left]
    simp

/-- C3: from any in-capacity buffer state, inserting `capacity + k`
records (`k > 0`) leaves exactly the most recent `capacity` insertions, in
insertion order, and the buffer length never exceeds the capacity after
any sequence of insertions. -/
theorem add_log_ring_buffer (w : LogWindow) (k : Nat) (xs : List LogRecord)
    (hw : w.log_lines.length ≤ w.max_lines) (hk : 0 < k)
    (hlen : xs.length = w.max_lines + k) :
    (foldAddLog w xs).log_lines = xs.drop k ∧
    (foldAddLog w xs).log_lines.length = w.max_lines ∧
    ∀ ys : List LogRecord, (foldAddLog w ys).log_lines.length ≤ w.max_lines := by
  have hfold : ∀ ys : List LogRecord,
      (foldAddLog w ys).log_lines = rightTake w.max_lines (w.log_lines ++ ys) := by
    intro ys
    rw [foldAddLog_log_lines w ys, foldl_dequeAppend _ _ _ hw]
  refine ⟨?_, ?_, ?_⟩
  · rw [hfold xs]
    simp only [rightTake, List.length_append, hlen,
      List.drop_append_eq_append_drop]
    rw [List.drop_eq_nil_of_le (by omega)]
    simp only [List.nil_append]
    congr 1
    omega
  · rw [hfold xs]
    simp only [rightTake, List.length_drop, List.length_append, hlen]
    omega
  · intro ys
    rw [hfold ys]
    exact rightTake_length_le _ _

/-- C3 witness: capacity 2, three insertions, the last two remain. -/
theorem add_log_ring_buffer_witness :
    wTest.log_lines.length ≤ wTest.max_lines ∧ 0 < 1 ∧
      xsTest.length = wTest.max_lines + 1 ∧
      (foldAddLog wTest xsTest).log_lines = xsTest.drop 1 :=
  ⟨by decide, by decide, by decide,
    (add_log_ring_buffer wTest 1 xsTest (by decide) (by decide) (by decide)).1⟩

/-- C9: from any prior buffer state of a positive-capacity window,
`clear` leaves the buffer holding exactly the single fresh
system / "Log cleared" record. -/
theorem clear_spec (w : LogWindow) (timestamp : String) (h : 1 ≤ w.max_lines) :
    (clear w timestamp).log_lines =
      [{ timestamp := timestamp, category := "system", message := "Log cleared" }] := by
  have h0 : ¬ (w.max_lines < 1) := by omega
  simp [clear, add_log, dequeAppend, h0]

/-- C9 witness: clearing the concrete window `wTest`. -/
theorem clear_spec_witness :
    1 ≤ wTest.max_lines ∧ (clear wTest "12:00:00").log_lines =
      [{ timestamp := "12:00:00", category := "system", message := "Log cleared" }] :=
  ⟨by decide, clear_spec wTest "12:00:00" (by decide)⟩

/-- C10: immediately after `LogWindow.__init__` (capacity at least the
four messages, whether or not window creation succeeded) the ring buffer
holds exactly the four welcome records, all with category `"system"`, in
insertion order. -/
theorem mkLogWindow_welcome (window_name : String) (window_size : Nat × Nat)
    (max_lines : Nat) (window_ok : Bool) (ts1 ts2 ts3 ts4 : String)
    (h : 4 ≤ max_lines) :
    (mkLogWindow window_name window_size max_lines window_ok
        ts1 ts2 ts3 ts4).log_lines =
      [{ timestamp := ts1, category := "system",
         message := "Log window initialized" },
       { timestamp := ts2, category := "system",
         message := "Press keys 1-5 to toggle diagnostic categories" },
       { timestamp := ts3, category := "system",
         message := "Press \x27f\x27 to force a full diagnostic log" },
       { timestamp := ts4, category := "system",
         message := "window can be resized by dragging" }] ∧
    ∀ r ∈ (mkLogWindow window_name window_size max_lines window_ok
        ts1 ts2 ts3 ts4).log_lines, r.category = "system" := by
  have h1 : ¬ (max_lines < 1) := by omega
  have h2 : ¬ (max_lines < 2) := by omega
  have h3 : ¬ (max_lines < 3) := by omega
  have h4 : ¬ (max_lines < 4) := by omega
  have hbuf : (mkLogWindow window_name window_size max_lines window_ok
      ts1 ts2 ts3 ts4).log_lines =
      [{ timestamp := ts1, category := "system",
         message := "Log window initialized" },
       { timestamp := ts2, category := "system",
         message := "Press keys 1-5 to toggle diagnostic categories" },
       { timestamp := ts3, category := "system",
         message := "Press \x27f\x27 to force a full diagnostic log" },
       { timestamp := ts4, category := "system",
         message := "window can be resized by dragging" }] := by
    simp [mkLogWindow, add_log, dequeAppend, h1, h2, h3, h4]
  refine ⟨hbuf, ?_⟩
  intro r hr
  rw [hbuf] at hr
  simp only [List.mem_cons, List.not_mem_nil, or_false] at hr
  rcases hr with rfl | rfl | rfl | rfl <;> rfl

/-- C10 witness: the default configuration window holds the four welcome
records. -/
theorem mkLogWindow_welcome_witness :
    4 ≤ 100 ∧
      (mkLogWindow "System Logs" (1000, 600) 100 true
        "a" "b" "c" "d").log_lines.length = 4 :=
  ⟨by decide, by
    rw [(mkLogWindow_welcome "System Logs" (1000, 600) 100 true
      "a" "b" "c" "d" (by norm_num)).1]
    rfl⟩

/-- C2 (amended): with the fixed default geometry (canvas height 600,
line height 20) and more than `V = 30` buffered records, `render` draws —
oldest first — only the first 29 of the 30 most recent records (the
bottom-margin break fires before the newest is drawn), and then presents
the canvas. -/
theorem render_visible_spec (w : LogWindow) (hh : w.window_height = 600)
    (hlh : w.line_height = 20) (hM : 30 < w.log_lines.length) :
    renderRecords w = (w.log_lines.drop (w.log_lines.length - 30)).take 29 ∧
    (renderRecords w).length = 29 ∧
    (render w).2 = true := by
  have hmin : min (w.window_height / w.line_height) w.log_lines.length = 30 := by
    rw [hh, hlh]
    omega
  have hslice : visibleSlice w = w.log_lines.drop (w.log_lines.length - 30) := by
    simp only [visibleSlice, hmin]
  have hlen : (visibleSlice w).length = 30 := by
    rw [hslice]
    simp only [List.length_drop]
    omega
  have hrows : rowsFrom 600 20 20 30 = 29 := by decide
  have hrr : renderRecords w = (visibleSlice w).take 29 := by
    unfold renderRecords
    rw [drawnRows_map_snd, hlen, hh, hlh, hrows]
  refine ⟨?_, ?_, rfl⟩
  · rw [hrr, hslice]
  · rw [hrr, List.length_take, hlen]
    decide

/-- C2 counterexample: `V = 600 / 20 = 30` lines fit and the buffer holds
31 > 30 records, yet `render` draws only 29 records — not the 30 most
recent ones, as the newest record is never drawn. -/
theorem render_counterexample :
    overfullWindow.window_height / overfullWindow.line_height = 30 ∧
    overfullWindow.log_lines.length = 31 ∧
    (renderRecords overfullWindow).length = 29 ∧
    renderRecords overfullWindow ≠ overfullWindow.log_lines.drop 1 :=
  ⟨rfl, by decide, by decide, by decide⟩

/-- C2 witness: the amended statement instantiated at `overfullWindow`. -/
theorem render_visible_spec_witness :
    (overfullWindow.window_height = 600 ∧ overfullWindow.line_height = 20 ∧
      30 < overfullWindow.log_lines.length) ∧
    renderRecords overfullWindow =
      (overfullWindow.log_lines.drop
        (overfullWindow.log_lines.length - 30)).take 29 :=
  ⟨⟨rfl, rfl, by decide⟩,
    (render_visible_spec overfullWindow rfl rfl (by decide)).1⟩

theorem get_logger_stable (m : LoggingManager) (name : String) :
    get_logger (get_logger m name).1 name =
      ((get_logger m name).1, (get_logger m name).2) := by
  cases hl : alookup name m.loggers with
  | some lg => simp [get_logger, hl]
  | none => simp [get_logger, hl, alookup_aset_self]

theorem get_logger_iter_stable (m : LoggingManager) (name : String) (n : Nat) :
    get_logger_iter (get_logger m name).1 name n =
      ((get_logger m name).1, List.replicate n (get_logger m name).2) := by
  induction n with
  | zero => simp [get_logger_iter]
  | succ n ih =>
    simp [get_logger_iter, get_logger_stable, ih, List.replicate_succ]

/-- C4: `get_logger` returns the registered channel (and an unchanged
manager) when the name exists; otherwise it creates exactly one fresh
channel, appended to the registry, named after the request, without
handlers, and with the propagation flag cleared exactly for the five
special names; repeated calls with the same name yield identical handles
and no further registry growth. -/
theorem get_logger_spec (m : LoggingManager) (name : String)
    (hkeys : m.special_loggers.map Prod.fst = special_categories) :
    (∀ lg, alookup name m.loggers = some lg → get_logger m name = (m, lg)) ∧
    (alookup name m.loggers = none →
      (get_logger m name).1.loggers =
        m.loggers ++ [(name, (get_logger m name).2)] ∧
      (get_logger m name).2.name = name ∧
      (get_logger m name).2.handlers = [] ∧
      ((get_logger m name).2.propagate = false ↔ name ∈ special_categories)) ∧
    (∀ n, 0 < n →
      (get_logger_iter m name n).2 =
        List.replicate n (get_logger m name).2 ∧
      (get_logger_iter m name n).1 = (get_logger m name).1) := by
  refine ⟨?_, ?_, ?_⟩
  · intro lg hl
    simp [get_logger, hl]
  · intro hl
    refine ⟨?_, ?_, ?_, ?_⟩
    · simp only [get_logger, hl]
      exact aset_of_alookup_none name _ m.loggers hl
    · simp [get_logger, hl]
    · simp [get_logger, hl]
    · have hmem := alookup_isSome_iff_mem name m.special_loggers
      rw [hkeys] at hmem
      simp only [get_logger, hl]
      rw [← hmem]
      cases hb : (alookup name m.special_loggers).isSome <;> simp [hb]
  · intro n hn
    cases n with
    | zero => omega
    | succ n =>
      constructor
      · simp [get_logger_iter, get_logger_iter_stable, List.replicate_succ]
      · simp [get_logger_iter, get_logger_iter_stable]

/-- C4 witness: requesting a fresh non-special name on the initialized
manager leaves its propagation flag set. -/
theorem get_logger_spec_witness :
    (mInit.special_loggers.map Prod.fst = special_categories ∧
      alookup "vision" mInit.loggers = none) ∧
    ((get_logger mInit "vision").2.propagate = false ↔
      "vision" ∈ special_categories) :=
  ⟨⟨by decide, by decide⟩,
    ((get_logger_spec mInit "vision" (by decide)).2.1 (by decide)).2.2.2⟩

/-- C8: `initialize_logging` is an idempotent singleton constructor: after
any call the global state holds exactly the returned instance, any later
call with arbitrary arguments returns that same instance with the state
unchanged, and the first call from the empty state builds the manager from
its arguments (with the constructor defaults `10`/`5` for the file
parameters). -/
theorem initialize_logging_spec (st : Option LoggingManager) (ld : String)
    (lvl : Nat) (ec ef : Bool) (ld2 : String) (lvl2 : Nat) (ec2 ef2 : Bool) :
    (initialize_logging st ld lvl ec ef).1 =
      some (initialize_logging st ld lvl ec ef).2 ∧
    initialize_logging (initialize_logging st ld lvl ec ef).1 ld2 lvl2 ec2 ef2 =
      ((initialize_logging st ld lvl ec ef).1,
        (initialize_logging st ld lvl ec ef).2) ∧
    (st = none →
      (initialize_logging st ld lvl ec ef).2 =
        mkLoggingManager ld lvl ec ef 10 5) := by
  cases st with
  | none => exact ⟨rfl, rfl, fun _ => rfl⟩
  | some mm => exact ⟨rfl, rfl, fun h => Option.noConfusion h⟩

/-- C8 witness: the first call from the empty state builds the manager,
and a repeated call with different arguments is a no-op. -/
theorem initialize_logging_spec_witness :
    ((none : Option LoggingManager) = none) ∧
      (initialize_logging none "logs" 20 true true).2 =
        mkLoggingManager "logs" 20 true true 10 5 :=
  ⟨rfl,
    (initialize_logging_spec none "logs" 20 true true "elsewhere" 40
      false false).2.2 rfl⟩

theorem set_level_some_lookup (level : Nat) (names : List String) :
    ∀ (m : LoggingManager) (name : String),
    alookup name (set_level m level (some names)).loggers =
      if name ∈ names then
        (alookup name m.loggers).map fun lg => { lg with level := level }
      else alookup name m.loggers := by
  induction names with
  | nil =>
    intro m name
    simp [set_level]
  | cons n rest ih =>
    intro m name
    have hfold : set_level m level (some (n :: rest)) =
        set_level (if (alookup n m.loggers).isSome then
          { m with loggers :=
              aupdate n (fun lg => { lg with level := level }) m.loggers }
        else m) level (some rest) := by
      simp only [set_level, List.foldl_cons]
    have hstep : alookup name ((if (alookup n m.loggers).isSome then
        { m with loggers :=
            aupdate n (fun lg => { lg with level := level }) m.loggers }
      else m).loggers) =
        if n = name then
          (alookup name m.loggers).map fun lg => { lg with level := level }
        else alookup name m.loggers := by
      by_cases hn : (alookup n m.loggers).isSome
      · rw [if_pos hn]
        exact alookup_aupdate name n _ m.loggers
      · rw [if_neg hn]
        by_cases hne : n = name
        · subst hne
          cases h' : alookup n m.loggers with
          | none => simp
          | some lg => rw [h'] at hn; simp at hn
        · rw [if_neg hne]
    rw [hfold, ih, hstep]
    by_cases h1 : name ∈ rest <;> by_cases h2 : n = name <;>
      cases halo : alookup name m.loggers <;>
        simp [h1, h2, halo, List.mem_cons, eq_comm]

/-- C6: `set_level` with no name list sets the level of every registered
channel; with a name list it sets exactly the listed channels that exist,
leaves every channel not listed untouched, silently ignores unknown names,
and is a complete no-op when no listed name is registered. -/
theorem set_level_spec (m : LoggingManager) (level : Nat) :
    (∀ name, alookup name (set_level m level none).loggers =
      (alookup name m.loggers).map fun lg => { lg with level := level }) ∧
    (∀ names name, name ∈ names →
      alookup name (set_level m level (some names)).loggers =
        (alookup name m.loggers).map fun lg => { lg with level := level }) ∧
    (∀ names name, name ∉ names →
      alookup name (set_level m level (some names)).loggers =
        alookup name m.loggers) ∧
    (∀ names, (∀ n ∈ names, alookup n m.loggers = none) →
      set_level m level (some names) = m) := by
  refine ⟨?_, ?_, ?_, ?_⟩
  · intro name
    simp only [set_level]
    exact alookup_map_value name (fun lg => { lg with level := level }) m.loggers
  · intro names name hmem
    rw [set_level_some_lookup, if_pos hmem]
  · intro names name hmem
    rw [set_level_some_lookup, if_neg hmem]
  · intro names
    induction names with
    | nil =>
      intro _
      simp [set_level]
    | cons n rest ih =>
      intro hnone
      have h0 : alookup n m.loggers = none := hnone n (List.mem_cons_self n rest)
      have hfold : set_level m level (some (n :: rest)) =
          set_level m level (some rest) := by
        simp [set_level, List.foldl_cons, h0]
      rw [hfold]
      exact ih fun x hx => hnone x (List.mem_cons_of_mem n hx)

/-- C6 witness: an unknown name neither errors nor changes anything on
the initialized manager. -/
theorem set_level_spec_witness :
    (∀ n ∈ ["doesNotExist"], alookup n mInit.loggers = none) ∧
      set_level mInit 40 (some ["doesNotExist"]) = mInit :=
  ⟨by decide, (set_level_spec mInit 40).2.2.2 ["doesNotExist"] (by decide)⟩

theorem aupdate_append_last {α : Type} (k : String) (f : α → α) (v : α)
    (l : List (String × α)) (h : alookup k l = none) :
    aupdate k f (l ++ [(k, v)]) = l ++ [(k, f v)] := by
  induction l with
  | nil => simp [aupdate]
  | cons p rest ih =>
    simp only [alookup] at h
    by_cases hp : p.1 = k
    · simp [hp] at h
    · rw [if_neg hp] at h
      have e1 : (p :: rest) ++ [(k, v)] = p :: (rest ++ [(k, v)]) := rfl
      have e2 : (p :: rest) ++ [(k, f v)] = p :: (rest ++ [(k, f v)]) := rfl
      rw [e1, e2]
      simp only [aupdate, if_neg hp]
      rw [ih h]

theorem init_special_one_fresh (m : LoggingManager) (c : String)
    (hc : alookup c m.loggers = none) :
    init_special_one m c =
      { m with
        loggers := m.loggers ++
          [(c, { name := c, level := 0,
                 propagate := !(alookup c m.special_loggers).isSome,
                 handlers := if m.enable_file then
                     [Handler.rotatingFile (m.log_dir ++ "/" ++ c ++ ".log")
                       (m.max_file_size_mb * 1024 * 1024) m.backup_count]
                   else [],
                 records := [] })],
        special_loggers := aset c (some c) m.special_loggers } := by
  by_cases hf : m.enable_file <;>
    simp only [init_special_one, get_logger, hc, hf, if_true, if_false,
      ite_true, ite_false, aset_of_alookup_none _ _ _ hc] <;>
    [rw [aupdate_append_last _ _ _ _ hc]; skip] <;> rfl

theorem mkLoggingManager_eq (log_dir : String) (default_level : Nat)
    (ec ef : Bool) (mb bc : Nat) :
    mkLoggingManager log_dir default_level ec ef mb bc =
      mgrStep log_dir default_level ec ef mb bc special_categories := by
  have h1 : init_special_one (mgrStep log_dir default_level ec ef mb bc [])
      "diagnostic" = mgrStep log_dir default_level ec ef mb bc
        ["diagnostic"] := by
    rw [init_special_one_fresh _ _
      (by simp [mgrStep, rootLoggerOf, alookup])]
    rfl
  have h2 : init_special_one
      (mgrStep log_dir default_level ec ef mb bc ["diagnostic"]) "sensor" =
      mgrStep log_dir default_level ec ef mb bc ["diagnostic", "sensor"] := by
    rw [init_special_one_fresh _ _
      (by simp [mgrStep, rootLoggerOf, specialLoggerOf, alookup])]
    rfl
  have h3 : init_special_one
      (mgrStep log_dir default_level ec ef mb bc ["diagnostic", "sensor"])
      "sync" = mgrStep log_dir default_level ec ef mb bc
        ["diagnostic", "sensor", "sync"] := by
    rw [init_special_one_fresh _ _
      (by simp [mgrStep, rootLoggerOf, specialLoggerOf, alookup])]
    rfl
  have h4 : init_special_one
      (mgrStep log_dir default_level ec ef mb bc
        ["diagnostic", "sensor", "sync"]) "control" =
      mgrStep log_dir default_level ec ef mb bc
        ["diagnostic", "sensor", "sync", "control"] := by
    rw [init_special_one_fresh _ _
      (by simp [mgrStep, rootLoggerOf, specialLoggerOf, alookup])]
    rfl
  have h5 : init_special_one
      (mgrStep log_dir default_level ec ef mb bc
        ["diagnostic", "sensor", "sync", "control"]) "performance" =
      mgrStep log_dir default_level ec ef mb bc
        ["diagnostic", "sensor", "sync", "control", "performance"] := by
    rw [init_special_one_fresh _ _
      (by simp [mgrStep, rootLoggerOf, specialLoggerOf, alookup])]
    rfl
  have h0 : mkLoggingManager log_dir default_level ec ef mb bc =
      initialize_special_loggers
        (mgrStep log_dir default_level ec ef mb bc []) := rfl
  rw [h0]
  simp only [initialize_special_loggers, special_categories, List.foldl_cons,
    List.foldl_nil]
  rw [h1, h2, h3, h4, h5]

/-- C7: manager construction eagerly creates exactly the five special
channels (besides the root entry): each is registered, non-propagating,
recorded in `special_loggers`, and — when file output is enabled — carries
exactly its own rotating file handler targeting
`<log_dir>/<category>.log` with the configured size cap and backup
count. -/
theorem initialize_special_spec (log_dir : String) (default_level : Nat)
    (ec ef : Bool) (mb bc : Nat) :
    (mkLoggingManager log_dir default_level ec ef mb bc).loggers.map Prod.fst =
      "root" :: special_categories ∧
    ∀ c ∈ special_categories,
      alookup c (mkLoggingManager log_dir default_level ec ef mb bc).loggers =
        some ({ name := c, level := 0, propagate := false,
                handlers := if ef then
                    [Handler.rotatingFile (log_dir ++ "/" ++ c ++ ".log")
                      (mb * 1024 * 1024) bc]
                  else [],
                records := [] }) ∧
      alookup c
          (mkLoggingManager log_dir default_level ec ef mb bc).special_loggers =
        some (some c) := by
  rw [mkLoggingManager_eq]
  constructor
  · simp [mgrStep, special_categories]
  · intro c hc
    simp only [special_categories, List.mem_cons, List.not_mem_nil,
      or_false] at hc
    rcases hc with rfl | rfl | rfl | rfl | rfl <;>
      exact ⟨by simp [mgrStep, specialLoggerOf, special_categories, alookup],
        by simp [mgrStep, special_categories, alookup]⟩

/-- C7 witness: the sync channel of the concrete initialized manager. -/
theorem initialize_special_spec_witness :
    "sync" ∈ special_categories ∧
      alookup "sync" mInit.loggers =
        some ({ name := "sync", level := 0, propagate := false,
                handlers := [Handler.rotatingFile
                  ("logs" ++ "/" ++ "sync" ++ ".log") (10 * 1024 * 1024) 5],
                records := [] }) :=
  ⟨by decide,
    ((initialize_special_spec "logs" 20 true true 10 5).2 "sync" (by decide)).1⟩

/-- C5: on a recognized, initialized category, `toggle_special_logger`
sets that channel's level to DEBUG when enabling and CRITICAL when
disabling, and appends exactly one INFO record describing the toggle to
the root channel, leaving every other channel's registry entry untouched;
on an unrecognized or still-uninitialized category it is a complete
no-op. -/
theorem toggle_special_logger_spec (m : LoggingManager) (category : String)
    (enable : Bool) (hroot : (alookup "root" m.loggers).isSome = true) :
    (∀ lname, alookup category m.special_loggers = some (some lname) →
      ∃ m', toggle_special_logger m category enable = some m' ∧
        (alookup lname m'.loggers).map Logger.level =
          (alookup lname m.loggers).map
            (fun _ => if enable then DEBUG else CRITICAL) ∧
        rootRecords m' = rootRecords m ++
          [(INFO, (if enable then "Enabled" else "Disabled") ++ " " ++
            category ++ " logging")] ∧
        (∀ n, n ≠ lname → n ≠ "root" →
          alookup n m'.loggers = alookup n m.loggers)) ∧
    (alookup category m.special_loggers = none →
      toggle_special_logger m category enable = some m) ∧
    (alookup category m.special_loggers = some none →
      toggle_special_logger m category enable = some m) := by
  obtain ⟨rlg, hrlg⟩ := Option.isSome_iff_exists.mp hroot
  refine ⟨?_, ?_, ?_⟩
  · intro lname hcat
    have hrv : ∃ rv : Logger, alookup "root" (aupdate lname
        (fun lg => { lg with level := if enable then DEBUG else CRITICAL })
        m.loggers) = some rv ∧ rv.records = rlg.records := by
      rw [alookup_aupdate]
      by_cases hr : lname = "root"
      · rw [if_pos hr, hrlg]
        exact ⟨_, rfl, rfl⟩
      · rw [if_neg hr, hrlg]
        exact ⟨rlg, rfl, rfl⟩
    obtain ⟨rv, hrveq, hrvrec⟩ := hrv
    have hm' : toggle_special_logger m category enable =
        some { m with
                 loggers := aupdate "root"
                   (fun lg => { lg with records := lg.records ++
                     [(INFO,
                       (if enable then "Enabled" else "Disabled") ++ " " ++
                         category ++ " logging")] })
                   (aupdate lname
                     (fun lg =>
                       { lg with
                           level := if enable then DEBUG else CRITICAL })
                     m.loggers) } := by
      simp only [toggle_special_logger, hcat, hrveq]
    refine ⟨_, hm', ?_, ?_, ?_⟩
    · simp only [alookup_aupdate, if_pos rfl]
      by_cases hr : "root" = lname <;>
        cases halo : alookup lname m.loggers <;>
          simp [hr, halo]
    · simp [rootRecords, alookup_aupdate, hrveq, hrlg, hrvrec]
    · intro n hn1 hn2
      simp only [alookup_aupdate]
      rw [if_neg fun h => hn2 h.symm, if_neg fun h => hn1 h.symm]
  · intro hcat
    simp [toggle_special_logger, hcat]
  · intro hcat
    simp [toggle_special_logger, hcat]

/-- C5 witness: disabling the initialized sync category on the concrete
manager succeeds (is not a no-op). -/
theorem toggle_special_logger_spec_witness :
    ((alookup "root" mInit.loggers).isSome = true ∧
      alookup "sync" mInit.special_loggers = some (some "sync")) ∧
    (toggle_special_logger mInit "sync" false).isSome = true := by
  refine ⟨⟨by decide, by decide⟩, ?_⟩
  obtain ⟨m', hm', -, -, -⟩ :=
    (toggle_special_logger_spec mInit "sync" false (by decide)).1 "sync"
      (by decide)
  rw [hm']
  rfl

end RootLogger
